import Mathlib

/-!
Shallow embedding of the food filtering / scoring / plan-generation core of
the fem-nourish-foodoscope backend (src/backend/filter_and_score.py and
src/backend/planner.py), together with theorems settling the frozen claims.

Modelling conventions:
* Python floats are modelled as exact rationals (ℚ).
* pandas DataFrames are modelled as a `Frame`: a list of rows plus presence
  flags for the optional columns the code probes with `in df.columns`.
* Optional free-text fields (`None` in Python) are modelled as `""`, matching
  the code's truthiness tests (`if not allergies: ...`).
-/

namespace Foodoscope

attribute [local semireducible] Rat.add Rat.mul Rat.sub Rat.inv

/-- Whitespace class of the regex token `\s` (ASCII part), used both by the
flexible-whitespace patterns `create_regex_pattern` builds and by the
code-fence stripping in the planner. -/
def isPySpace (c : Char) : Bool :=
  c = ' ' || c = '\t' || c = '\n' || c = '\r' || c = '\x0b' || c = '\x0c'

/-- Plain substring containment, Python's `needle in hay` on strings. -/
def strContains (hay needle : String) : Bool :=
  hay.toList.tails.any (fun t => needle.toList.isPrefixOf t)

/-- Python `str.split(sep)` for a one-character separator (empty string gives
`[""]`, as in Python). -/
def splitOnChar (sep : Char) : List Char → List (List Char)
  | [] => [[]]
  | c :: rest =>
    let r := splitOnChar sep rest
    if c = sep then [] :: r
    else
      match r with
      | h :: t => (c :: h) :: t
      | [] => [[c]]

/-- Python `str.strip()` (ASCII whitespace). -/
def stripWS (s : List Char) : List Char :=
  ((s.dropWhile isPySpace).reverse.dropWhile isPySpace).reverse

/-- Python `str.lower()` (ASCII case mapping, the range exercised here). -/
def strLower (s : String) : String := String.mk (s.toList.map Char.toLower)

/-- Python `str.strip()` on strings. -/
def strTrim (s : String) : String := String.mk (stripWS s.toList)

/-- Embeds `FoodFilter.parse_restrictions`: split a comma-separated string,
trim and lowercase each piece, drop empties; the empty string (modelling
`None` as well) yields `[]`. -/
def parse_restrictions (s : String) : List String :=
  if s = "" then []
  else (((splitOnChar ',' s.toList)).map
          (fun item => strLower (String.mk (stripWS item)))).filter (fun c => c ≠ "")

/-- Matcher for one term of the pattern built by
`FoodFilter.create_regex_pattern`: the term is `re.escape`d and every literal
space is replaced by `\s*`, so its space-separated parts must occur in order
starting at the head of `s`, with any (possibly empty) run of whitespace
between consecutive parts. -/
def matchFrom : List (List Char) → List Char → Bool
  | [], _ => true
  | [p], s => p.isPrefixOf s
  | p :: q :: ps, s =>
      p.isPrefixOf s &&
      (let s1 := s.drop p.length
       (List.range (s1.length + 1)).any
         (fun k => (s1.take k).all isPySpace && matchFrom (q :: ps) (s1.drop k)))

/-- Regex search (`Series.str.contains`) of a single term's flexible pattern
anywhere inside `text`. -/
def termSearch (term text : String) : Bool :=
  text.toList.tails.any (matchFrom (splitOnChar ' ' term.toList))

/-- Search of the whole alternation pattern `create_regex_pattern terms`. -/
def patternSearch (terms : List String) (text : String) : Bool :=
  terms.any (fun t => termSearch t text)

/-- One row of the food catalog, with the columns the core reads. -/
structure Row where
  food_key : String
  Food_Item : String
  Category : String
  Ingredients : String
  Calories : ℚ
  Protein : ℚ
  Carbs : ℚ
  Fat : ℚ
  dosha_vata : ℚ
  dosha_pitta : ℚ
  dosha_kapha : ℚ
  is_veg : Bool
  is_vegan : Bool
  user_score : ℚ
  deriving Repr, DecidableEq, Inhabited

/-- A dataframe: rows plus presence flags for the optional columns the code
tests with `in df.columns` / `in row`. -/
structure Frame where
  rows : List Row
  hasIngredients : Bool
  hasIsVeg : Bool
  hasIsVegan : Bool
  hasDoshaVata : Bool
  hasDoshaPitta : Bool
  hasDoshaKapha : Bool
  hasUserScore : Bool
  deriving Repr, DecidableEq, Inhabited

/-- The slice of the pydantic `UserProfile` read by the filtering core.
Optional comma-separated text fields are strings with `""` for `None`; the
diet preference holds the `FoodPreferenceEnum` value string (`""` for `None`). -/
structure UserProfile where
  Allergies : String
  Health_Conditions : String
  Dietary_Restrictions : String
  Food_preference : String
  deriving Repr, DecidableEq, Inhabited

/-- Row hit by the allergy pattern: it matches the food key, or (when the
`Ingredients` column exists) the lowercased ingredients text. -/
def allergyHit (terms : List String) (hasIngr : Bool) (r : Row) : Bool :=
  patternSearch terms r.food_key || (hasIngr && patternSearch terms (strLower r.Ingredients))

/-- Embeds `FoodFilter.filter_by_allergies`. -/
def filter_by_allergies (f : Frame) (allergies : String) : Frame :=
  if allergies = "" then f
  else
    let allergen_list := parse_restrictions allergies
    if allergen_list = [] then f
    else { f with rows := f.rows.filter (fun r => !(allergyHit allergen_list f.hasIngredients r)) }

/-- Embeds `FoodFilter.filter_by_dietary_restrictions` (food-key-only match). -/
def filter_by_dietary_restrictions (f : Frame) (restrictions : String) : Frame :=
  if restrictions = "" then f
  else
    let restriction_list := parse_restrictions restrictions
    if restriction_list = [] then f
    else { f with rows := f.rows.filter (fun r => !(patternSearch restriction_list r.food_key)) }

/-- Embeds `FoodFilter.filter_by_diet_preference`. -/
def filter_by_diet_preference (f : Frame) (up : UserProfile) : Frame :=
  if up.Food_preference = "" then f
  else
    let pref_str := strLower up.Food_preference
    if pref_str = "vegan" then
      (if f.hasIsVegan then { f with rows := f.rows.filter (fun r => r.is_vegan) } else f)
    else if pref_str = "vegetarian" then
      (if f.hasIsVeg then { f with rows := f.rows.filter (fun r => r.is_veg) } else f)
    else f

/-- The `condition_restrictions` table of `filter_by_health_conditions`. -/
def condition_restrictions : List (String × List String) :=
  [("diabetes", ["sugar", "honey", "jaggery", "sweet"]),
   ("hypertension", ["salt", "sodium", "pickle"]),
   ("heart disease", ["saturated fat", "trans fat", "cholesterol"]),
   ("kidney disease", ["protein", "sodium", "potassium"]),
   ("ibs", ["spicy", "high fiber", "dairy"]),
   ("gout", ["purine", "organ meat", "alcohol"])]

/-- Avoid-terms collected from the condition table: a user condition term
matches a table key by case-insensitive containment in either direction.  The
source accumulates them in a set; only membership matters downstream, so a
list with possible duplicates is an equivalent model. -/
def avoidTerms (conditions : List String) : List String :=
  ((condition_restrictions.filter (fun kv =>
      conditions.any (fun c =>
        strContains kv.1 (strTrim (strLower c)) || strContains (strTrim (strLower c)) kv.1))).map
    (fun kv => kv.2)).flatten

/-- Embeds `FoodFilter.filter_by_health_conditions` (food-key-only match). -/
def filter_by_health_conditions (f : Frame) (health_conditions : String) : Frame :=
  if health_conditions = "" then f
  else
    let conditions := parse_restrictions health_conditions
    let avoid := avoidTerms conditions
    if avoid = [] then f
    else { f with rows := f.rows.filter (fun r => !(patternSearch avoid r.food_key)) }

/-- Python `str.capitalize`: first character upper-cased, the rest lower-cased. -/
def pyCapitalize (s : String) : String :=
  match s.toList with
  | [] => ""
  | c :: rest => String.mk (c.toUpper :: rest.map Char.toLower)

/-- Column-presence test for `f"Dosha_{name}" in df.columns`. -/
def hasDoshaCol (f : Frame) (capName : String) : Bool :=
  if capName = "Vata" then f.hasDoshaVata
  else if capName = "Pitta" then f.hasDoshaPitta
  else if capName = "Kapha" then f.hasDoshaKapha
  else false

/-- The value in the `Dosha_*` column named by `capName` (meaningful only when
`hasDoshaCol` holds). -/
def colEffect (capName : String) (r : Row) : ℚ :=
  if capName = "Vata" then r.dosha_vata
  else if capName = "Pitta" then r.dosha_pitta
  else r.dosha_kapha

/-- Dosha-column lookup on one row (`f"Dosha_{...}" in row`). -/
def doshaEffect (f : Frame) (capName : String) (r : Row) : Option ℚ :=
  if hasDoshaCol f capName then some (colEffect capName r) else none

/-- Embeds `FoodFilter.filter_by_dosha_balance`: keep rows by strictness band. -/
def filter_by_dosha_balance (f : Frame) (target_dosha : String) (strictness : ℚ) : Frame :=
  if target_dosha = "" then f
  else
    let capName := pyCapitalize target_dosha
    if !(hasDoshaCol f capName) then f
    else if strictness ≥ 8/10 then
      { f with rows := f.rows.filter (fun r => decide (colEffect capName r < 0)) }
    else if strictness ≥ 5/10 then
      { f with rows := f.rows.filter (fun r => decide (colEffect capName r ≤ 0)) }
    else
      { f with rows := f.rows.filter (fun r => decide (colEffect capName r ≤ 1/2)) }

/-- Stages 1-5 of `filter_foods_for_user` (the strict pass). -/
def strictFiltered (food_df : Frame) (up : UserProfile) (target_dosha : String)
    (dosha_strictness : ℚ) : Frame :=
  let df := filter_by_allergies food_df up.Allergies
  let df := filter_by_health_conditions df up.Health_Conditions
  let df := filter_by_diet_preference df up
  let df := filter_by_dietary_restrictions df up.Dietary_Restrictions
  if target_dosha ≠ "" then filter_by_dosha_balance df target_dosha dosha_strictness else df

/-- The relaxed pass of `filter_foods_for_user`: re-start from the full catalog
and reapply only the allergy and diet-preference filters plus the dosha filter
at strictness 0.3. -/
def relaxedFiltered (food_df : Frame) (up : UserProfile) (target_dosha : String) : Frame :=
  let df := filter_by_allergies food_df up.Allergies
  let df := filter_by_diet_preference df up
  if target_dosha ≠ "" then filter_by_dosha_balance df target_dosha (3/10) else df

/-- Filtering result of `filter_foods_for_user` before the item cap, including
the relaxation policy (step 4 of the source). -/
def preCap (food_df : Frame) (up : UserProfile) (target_dosha : String)
    (dosha_strictness : ℚ) : Frame :=
  let df := strictFiltered food_df up target_dosha dosha_strictness
  if df.rows.length < 20 ∧ dosha_strictness > 3/10 then
    relaxedFiltered food_df up target_dosha
  else df

/-- Comparator by a rational key. -/
def leKey (key : α → ℚ) (a b : α) : Bool := decide (key a ≤ key b)

/-- Stable insertion of `a` into a list sorted by `le` (on a tie, `a` is
placed first). -/
def insertLe (le : α → α → Bool) (a : α) : List α → List α
  | [] => [a]
  | b :: l => if le a b then a :: b :: l else b :: insertLe le a l

/-- Stable insertion sort.  This models the ascending argsort performed by
`pandas.sort_values` with the default `kind='quicksort'`, faithfully for
frames of at most 16 rows (numpy's introsort runs plain insertion sort, which
is stable, on partitions of at most 16 elements); for larger frames it is a
correct sort whose tie order over-specifies numpy's. -/
def insertionSort (le : α → α → Bool) : List α → List α
  | [] => []
  | a :: l => insertLe le a (insertionSort le l)

/-- Embeds `filter_foods_for_user`: full pipeline with relaxation policy and
item cap; `df.sort_values('Calories')` is the ascending stable sort above. -/
def filter_foods_for_user (food_df : Frame) (up : UserProfile) (target_dosha : String)
    (max_items : Nat) (dosha_strictness : ℚ) : Frame :=
  let df := preCap food_df up target_dosha dosha_strictness
  if df.rows.length > max_items then
    { df with rows := (insertionSort (leKey (fun r => r.Calories)) df.rows).take max_items }
  else df

/-- Round half-to-even to an integer (the tie behaviour of Python `round`,
modelled over exact rationals). -/
def halfEven (x : ℚ) : ℤ :=
  let n := ⌊x⌋
  let r := x - n
  if r < 1/2 then n
  else if 1/2 < r then n + 1
  else if n % 2 = 0 then n else n + 1

/-- Python `round(x, 2)`. -/
def pyRound2 (x : ℚ) : ℚ := (halfEven (x * 100) : ℚ) / 100

/-- Python `round(x, 1)`. -/
def pyRound1 (x : ℚ) : ℚ := (halfEven (x * 10) : ℚ) / 10

/-- Python `int()` truncation toward zero. -/
def pyInt (x : ℚ) : ℤ := if x < 0 then -⌊-x⌋ else ⌊x⌋

/-- The dict view of a `DoshaResult` consumed by scorer and planner
(`dosha_result.get('dosha', default)` and `.get('scores', {})`). -/
structure DoshaDict where
  doshaOpt : Option String
  scores : List (String × ℚ)
  deriving Repr, DecidableEq, Inhabited

/-- Dict access `d.get('dosha', dflt)`. -/
def DoshaDict.doshaD (d : DoshaDict) (dflt : String) : String := d.doshaOpt.getD dflt

/-- The `beneficial_categories` list of `score_foods_for_user`. -/
def beneficial_categories : List String :=
  ["vegetables", "fruits", "whole grains", "legumes", "herbs", "spices"]

/-- The `processed_indicators` list of `score_foods_for_user`. -/
def processed_indicators : List String := ["processed", "packaged", "canned", "instant"]

/-- Loop body of `FoodFilter.score_foods_for_user`: the score of one row.
`target_dosha` is already lowercased by the caller; the frame argument carries
the column-presence flags probed with `in row`. -/
def computeScore (f : Frame) (target_dosha : String) (dosha_scores : List (String × ℚ))
    (r : Row) : ℚ :=
  let s1 : ℚ :=
    if target_dosha ≠ "" then
      match doshaEffect f (pyCapitalize target_dosha) r with
      | some e => if e < 0 then 40 else if e = 0 then 20 else -20
      | none => 0
    else 0
  let s2 := dosha_scores.foldl (fun acc kw =>
      match doshaEffect f (pyCapitalize kw.1) r with
      | some e => acc + (-e * kw.2 * 20)
      | none => acc) s1
  let s3 := if 50 ≤ r.Calories ∧ r.Calories ≤ 400 then s2 + 10
            else if r.Calories > 600 then s2 - 10 else s2
  let s4 := if r.Protein > 5 then s3 + 5 else s3
  let category := strLower r.Category
  let s5 := if beneficial_categories.any (fun b => strContains category b) then s4 + 15 else s4
  let food_name := strLower r.Food_Item
  let s6 := if processed_indicators.any (fun i => strContains food_name i || strContains category i)
            then s5 - 15 else s5
  pyRound2 s6

/-- State of `df_scored` after the scoring loop, before the sort: every row's
`user_score` cell holds its computed score and the column now exists. -/
def scoredUnsorted (f : Frame) (d : DoshaDict) : Frame :=
  let target_dosha := strLower (d.doshaD "")
  { f with
    rows := f.rows.map (fun r => { r with user_score := computeScore f target_dosha d.scores r }),
    hasUserScore := true }

/-- Embeds `df_scored.sort_values('user_score', ascending=False)` as pandas
executes it (`nargsort`): a stable ascending argsort of the column followed by
reversing the whole indexer.  Faithful for frames small enough that numpy's
quicksort is the stable insertion sort (at most 16 rows); see `insertionSort`. -/
def sortScoreDesc (l : List Row) : List Row :=
  (insertionSort (leKey (fun r => r.user_score)) l).reverse

/-- Embeds `FoodFilter.score_foods_for_user` (the user-profile argument is
unused by the source loop as well). -/
def score_foods_for_user (f : Frame) (_up : UserProfile) (d : DoshaDict) : Frame :=
  let sc := scoredUnsorted f d
  { sc with rows := sortScoreDesc sc.rows }

/-- Suffix test on strings (by their character lists). -/
def strEndsWith (s t : String) : Bool := t.toList.isSuffixOf s.toList

/-- Rendering of `str(round(float(x), 1))` for a nonnegative value exactly
representable at one decimal (the only shape exercised here): integer part,
a dot, one digit. -/
def fmtQ1 (x : ℚ) : String :=
  let z := halfEven (x * 10)
  toString (z / 10) ++ "." ++ toString (z % 10)

/-- One food line of `make_food_snippet`. -/
def snippetLine (f : Frame) (r : Row) : String :=
  let name := String.mk (r.Food_Item.toList.take 30)
  let category := String.mk (r.Category.toList.take 15)
  let doshaTags := (["Vata", "Pitta", "Kapha"].filterMap (fun dn =>
      match doshaEffect f dn r with
      | some e => if e > 0 then some (dn ++ "+") else if e < 0 then some (dn ++ "-") else none
      | none => none))
  let dosha_str := if doshaTags = [] then "neutral" else String.intercalate "," doshaTags
  let diet_str := if f.hasIsVegan && r.is_vegan then "vegan"
                  else if f.hasIsVeg && r.is_veg then "veg" else "non-veg"
  let score_str := if f.hasUserScore then " (" ++ fmtQ1 r.user_score ++ ")" else ""
  name ++ " | " ++ category ++ " | " ++ toString (pyInt r.Calories) ++ "cal | " ++
    fmtQ1 r.Protein ++ "p | " ++ fmtQ1 r.Carbs ++ "c | " ++ fmtQ1 r.Fat ++ "f | " ++
    dosha_str ++ " | " ++ diet_str ++ score_str

/-- The count-summary line that `make_food_snippet` builds.  NOTE (faithful to
the source): the source appends this string to its local `lines` list only
AFTER `result = "\n".join(lines)` has been computed, so it never reaches the
returned string. -/
def snippetSummary (f : Frame) (n : Nat) : String :=
  "\nTotal available foods: " ++ toString f.rows.length ++
    ", showing top " ++ toString (min n f.rows.length)

/-- Embeds `make_food_snippet`.  The returned string is the join computed
before the summary-line append (see `snippetSummary`); the `available_cols`
local of the source is dead code and is omitted. -/
def make_food_snippet (f : Frame) (n : Nat) : String :=
  if f.rows.length = 0 then "No suitable foods found."
  else
    let sample := f.rows.take n
    let lines := ["Available Foods (Name | Category | Calories | Protein | Carbs | Fat | Dosha Effects | Diet):",
                  String.mk (List.replicate 100 '-')] ++ sample.map (snippetLine f)
    String.intercalate "\n" lines

/-- JSON-like values, the shape of `json.loads` output consumed by the plan
validator (objects keep insertion order, as Python dicts do). -/
inductive Json where
  | null : Json
  | bool : Bool → Json
  | num : ℚ → Json
  | str : String → Json
  | arr : List Json → Json
  | obj : List (String × Json) → Json
  deriving Repr

deriving instance DecidableEq for Except

/-- Dict key lookup (first match; keys from `json.loads` are unique). -/
def getKey : List (String × Json) → String → Option Json
  | [], _ => none
  | p :: l, k => if p.1 = k then some p.2 else getKey l k

/-- Python's `isinstance(x, (int, float))` together with the numeric value:
booleans pass the test too, since `bool` is a subclass of `int` (`True == 1`). -/
def asNum : Json → Option ℚ
  | .num q => some q
  | .bool b => some (if b then 1 else 0)
  | _ => none

/-- The key `f"day_{i}"`. -/
def dayKey (i : Nat) : String := "day_" ++ toString i

/-- Inner day check of `MealPlanner._validate_plan`: the day key maps to a
dict whose `breakfast`, `lunch` and `dinner` entries are non-empty lists. -/
def checkDay (plan : List (String × Json)) (k : String) : Bool :=
  match getKey plan k with
  | some (.obj day) =>
      ["breakfast", "lunch", "dinner"].all (fun meal =>
        match getKey day meal with
        | some (.arr items) => decide (items.length ≠ 0)
        | _ => false)
  | _ => false

/-- Totals check of `_validate_plan`: when a `totals` key exists it must be a
dict, and every day key present in it must map to a positive number. -/
def checkTotals (plan : List (String × Json)) (days : Nat) : Bool :=
  match getKey plan "totals" with
  | none => true
  | some (.obj totals) =>
      (List.range days).all (fun i =>
        match getKey totals (dayKey (i+1)) with
        | none => true
        | some v =>
            match asNum v with
            | some q => decide (0 < q)
            | none => false)
  | some _ => false

/-- Embeds `MealPlanner._validate_plan`. -/
def validatePlan (plan : Json) (expected_days : Nat) : Bool :=
  match plan with
  | .obj entries =>
      (List.range expected_days).all (fun i => checkDay entries (dayKey (i+1))) &&
      checkTotals entries expected_days
  | _ => false

/-- One meal-item dict of the fallback plan. -/
def mealItem (nm : String) (ings : List String) (portion : String) (cal : ℤ)
    (reason : String) : Json :=
  .obj [("name", .str nm), ("ingredients", .arr (ings.map .str)),
        ("portion", .str portion), ("calories", .num (cal : ℚ)), ("reason", .str reason)]

/-- The per-day meals dict built by `_generate_fallback_plan` (the loop builds
the same dict for every day; per-meal calories are `int(daily_calories * frac)`
with fractions 0.25 / 0.40 / 0.30 / 0.05). -/
def fallbackDay (target_dosha : String) (dc : ℚ) : Json :=
  .obj [("breakfast", .arr [mealItem "Ayurvedic Breakfast Bowl" ["oats", "milk", "fruits", "nuts"]
          ("1 bowl") (pyInt (dc * (25/100))) ("Balancing for " ++ target_dosha ++ " dosha")]),
        ("lunch", .arr [mealItem "Balanced Vegetarian Meal" ["rice", "dal", "vegetables", "ghee"]
          ("1 plate") (pyInt (dc * (40/100))) ("Nourishing and balanced")]),
        ("dinner", .arr [mealItem "Light Evening Meal" ["soup", "bread", "vegetables"]
          ("1 serving") (pyInt (dc * (30/100))) ("Easy to digest")]),
        ("snacks", .arr [mealItem "Herbal Tea with Nuts" ["herbal tea", "almonds"]
          ("1 cup + handful") (pyInt (dc * (5/100))) ("Light and nourishing")])]

/-- The `_load_fallback_templates` table (downstream the fallback plan only
uses its entry lengths, but the items are embedded in full). -/
def fallback_templates : List (String × List Json) :=
  [("vata",
    [.obj [("name", .str "Warm Oatmeal"), ("ingredients", .arr [.str "oats", .str "milk", .str "dates", .str "nuts"]),
           ("portion", .str "1 bowl"), ("calories", .num 300), ("reason", .str "Warm, nourishing, grounds Vata")],
     .obj [("name", .str "Vegetable Soup"), ("ingredients", .arr [.str "mixed vegetables", .str "ginger", .str "turmeric"]),
           ("portion", .str "1 bowl"), ("calories", .num 200), ("reason", .str "Warm, easy to digest")]]),
   ("pitta",
    [.obj [("name", .str "Fresh Fruit Salad"), ("ingredients", .arr [.str "apple", .str "pear", .str "grapes", .str "mint"]),
           ("portion", .str "1 bowl"), ("calories", .num 150), ("reason", .str "Cooling, sweet, balances Pitta")],
     .obj [("name", .str "Cucumber Raita"), ("ingredients", .arr [.str "cucumber", .str "yogurt", .str "mint", .str "cumin"]),
           ("portion", .str "1 serving"), ("calories", .num 100), ("reason", .str "Cooling, soothing")]]),
   ("kapha",
    [.obj [("name", .str "Spiced Tea"), ("ingredients", .arr [.str "ginger", .str "cardamom", .str "cinnamon", .str "black tea"]),
           ("portion", .str "1 cup"), ("calories", .num 20), ("reason", .str "Stimulating, warming, reduces Kapha")],
     .obj [("name", .str "Light Vegetable Stir-fry"), ("ingredients", .arr [.str "broccoli", .str "bell peppers", .str "ginger", .str "turmeric"]),
           ("portion", .str "1 plate"), ("calories", .num 250), ("reason", .str "Light, spiced, stimulating")]])]

/-- Template lookup `self.fallback_templates.get(target, templates['vata'])`. -/
def templatesFor (target : String) : List Json :=
  (fallback_templates.lookup target).getD ((fallback_templates.lookup "vata").getD [])

/-- Embeds `MealPlanner._generate_fallback_plan` (its `try` body; the body is
total, so the `except` branch is unreachable).  The user-profile parameter of
the source is unused by the body and omitted. -/
def generateFallbackPlan (dosha_info : DoshaDict) (daily_calories : ℚ) (days : Nat) : Json :=
  let target_dosha := strLower (dosha_info.doshaD "vata")
  let templates := templatesFor target_dosha
  .obj ((List.range days).map (fun i => (dayKey (i+1), fallbackDay target_dosha daily_calories)) ++
        [("totals", .obj ((List.range days).map
            (fun i => (dayKey (i+1), Json.num ((pyInt daily_calories : ℤ) : ℚ))))),
         ("summary", .obj [("total_foods_used", .num ((templates.length * 4 : ℕ) : ℚ)),
                           ("dosha_focus", .str target_dosha),
                           ("avg_daily_calories", .num ((pyInt daily_calories : ℤ) : ℚ)),
                           ("method", .str "fallback_template")])])

/-- Fuel-driven worker for `subTagWS` (structural recursion on the fuel keeps
the function kernel-reducible; the caller supplies fuel `s.length`, which the
scan never exhausts since every step consumes at least one character). -/
def subTagWSAux (tag : List Char) : Nat → List Char → List Char
  | _, [] => []
  | 0, s => s
  | fuel + 1, c :: rest =>
    if tag ≠ [] ∧ tag.isPrefixOf (c :: rest) then
      subTagWSAux tag fuel (((c :: rest).drop tag.length).dropWhile isPySpace)
    else c :: subTagWSAux tag fuel rest

/-- Left-to-right, non-overlapping removal of every occurrence of `tag`
followed by a maximal whitespace run — `re.sub(tag + r'\s*', '', s)` for a
literal tag. -/
def subTagWS (tag : List Char) (s : List Char) : List Char :=
  subTagWSAux tag s.length s

/-- The code-fence stripping pass of `_extract_json_from_text`: first
`re.sub(r'```json\s*', '')`, then `re.sub(r'```\s*', '')`. -/
def stripFences (s : List Char) : List Char :=
  subTagWS ("```".toList) (subTagWS ("```json".toList) s)

/-- Index of the first occurrence of `c`. -/
def firstIdxOf (c : Char) : List Char → Option Nat
  | [] => none
  | a :: rest => if a = c then some 0 else (firstIdxOf c rest).map (· + 1)

/-- Index of the last occurrence of `c`. -/
def lastIdxOf (c : Char) : List Char → Option Nat
  | [] => none
  | a :: rest =>
    match lastIdxOf c rest with
    | some k => some (k + 1)
    | none => if a = c then some 0 else none

/-- Fallback tail of `_extract_json_from_text`: strip the text and accept it
only when it starts with an opening and ends with a closing brace; otherwise
raise `ValueError`. -/
def fallbackClean (s : List Char) : Except String String :=
  let t := stripWS s
  if ("\x7b".toList.isPrefixOf t) ∧ ("\x7d".toList.isSuffixOf t) then .ok (String.mk t)
  else .error "No valid JSON found in text"

/-- Embeds `MealPlanner._extract_json_from_text`.  The greedy regex
`re.search(r'\x7b[\s\S]*\x7d', text)` matches, when some opening brace
precedes some closing brace, from the FIRST opening brace of the whole text to
the LAST closing brace (greedy `[\s\S]*`), regardless of balance. -/
def extractJsonFromText (text : String) : Except String String :=
  let s := stripFences text.toList
  match firstIdxOf '\x7b' s, lastIdxOf '\x7d' s with
  | some i, some j =>
      if i < j then .ok (String.mk ((s.drop i).take (j - i + 1)))
      else fallbackClean s
  | _, _ => fallbackClean s

/-- Store of pandas DataFrame objects: models Python heap references, so that
in-place writes (`df.at[...] = v`, column assignment) are distinguishable
from operations returning fresh frames. -/
abbrev Store := List Frame

/-- Allocate a fresh frame object, returning its reference. -/
def Store.alloc (s : Store) (f : Frame) : Store × Nat := (s ++ [f], s.length)

/-- In-place update of the object behind a reference. -/
def Store.write (s : Store) (r : Nat) (f : Frame) : Store := s.set r f

/-- Dereference. -/
def Store.deref (s : Store) (r : Nat) : Option Frame := s[r]?

/-- Embeds `FoodFilter.score_foods_for_user` at the heap level: `df.copy()`
allocates a fresh object; the column assignment and the loop's `.at` writes
mutate that copy in place; `sort_values` returns another fresh object which
the local name is rebound to.  Returns the store and the result reference. -/
def scoreFoodsStore (s : Store) (r : Nat) (up : UserProfile) (d : DoshaDict) : Store × Nat :=
  let df := (s.deref r).getD default
  let (s1, rc) := s.alloc df
  let s2 := s1.write rc (scoredUnsorted df d)
  s2.alloc (score_foods_for_user df up d)

/-- Embeds `filter_foods_for_user` at the heap level: one `df.copy()` at
entry, a second copy on the relaxation branch, and pure filter/sort steps that
all return fresh frames; nothing writes to the catalog's cell. -/
def filterFoodsStore (s : Store) (r : Nat) (up : UserProfile) (td : String)
    (mi : Nat) (ds : ℚ) : Store × Nat :=
  let food_df := (s.deref r).getD default
  let (s1, _rcopy) := s.alloc food_df
  let s2 := if (strictFiltered food_df up td ds).rows.length < 20 ∧ ds > 3/10
            then (s1.alloc food_df).1 else s1
  s2.alloc (filter_foods_for_user food_df up td mi ds)

/-- Row-keep predicate realised by `filter_by_diet_preference` (verification
artifact used to state the stage as one `List.filter`). -/
def keepPref (up : UserProfile) (hasVegan hasVeg : Bool) (r : Row) : Bool :=
  if up.Food_preference = "" then true
  else if strLower up.Food_preference = "vegan" then (!hasVegan || r.is_vegan)
  else if strLower up.Food_preference = "vegetarian" then (!hasVeg || r.is_veg)
  else true

/-- Row-keep predicate realised by `filter_by_dosha_balance`. -/
def keepDosha (f : Frame) (td : String) (st : ℚ) (r : Row) : Bool :=
  if td = "" then true
  else if !(hasDoshaCol f (pyCapitalize td)) then true
  else if st ≥ 8/10 then decide (colEffect (pyCapitalize td) r < 0)
  else if st ≥ 5/10 then decide (colEffect (pyCapitalize td) r ≤ 0)
  else decide (colEffect (pyCapitalize td) r ≤ 1/2)

/-- Spec-side reading of the claim about `_validate_plan`: the plan is a
mapping with keys `day_1 .. day_{days}`, each day a mapping whose breakfast,
lunch and dinner entries are non-empty sequences, and, if a `totals` key
exists, a mapping whose checked day entries are positive numbers (in Python's
reading of "number", see `asNum`). -/
def ValidSpec (plan : Json) (days : ℕ) : Prop :=
  ∃ entries, plan = Json.obj entries ∧
    (∀ i ∈ List.range days,
       ∃ day, getKey entries (dayKey (i+1)) = some (Json.obj day) ∧
         ∀ m ∈ (["breakfast", "lunch", "dinner"] : List String),
           ∃ items, getKey day m = some (Json.arr items) ∧ items ≠ []) ∧
    (∀ t, getKey entries "totals" = some t →
       ∃ te, t = Json.obj te ∧
         ∀ i ∈ List.range days, ∀ v, getKey te (dayKey (i+1)) = some v →
           ∃ q, asNum v = some q ∧ 0 < q)

/-! Concrete fixtures used by witnesses, counterexamples and instance parts of
the claims. -/

/-- Spinach row of the score-formula test vector (dosha effect −1 on Vata,
+1 on Pitta, 0 on Kapha). -/
def c2Row : Row :=
  ⟨"spinach", "Spinach", "Vegetables", "", 120, 6, 10, 1, -1, 1, 0, true, true, 0⟩

/-- Catalog holding only the Spinach row, all optional columns present
except `user_score`. -/
def c2F : Frame := ⟨[c2Row], true, true, true, true, true, true, false⟩

/-- The fixed dosha weights of the test vector. -/
def c2Scores : List (String × ℚ) := [("vata", 3/5), ("pitta", 3/10), ("kapha", 1/10)]

/-- Dosha result of the score-formula test vector. -/
def c2D : DoshaDict := ⟨some "vata", c2Scores⟩

/-- Two rows identical except for their names: they receive equal scores. -/
def c5RowA : Row := ⟨"alpha", "alpha", "misc", "", 100, 0, 0, 0, -1, 0, 0, true, true, 0⟩

/-- Second tied row. -/
def c5RowB : Row := { c5RowA with food_key := "beta", Food_Item := "beta" }

/-- Catalog with the two tied rows, in order alpha then beta. -/
def c5F : Frame := ⟨[c5RowA, c5RowB], true, true, true, true, true, true, false⟩

/-- Profile with every optional field absent. -/
def emptyUP : UserProfile := ⟨"", "", "", ""⟩

/-- Dosha result with primary dosha vata and no weights. -/
def vataD : DoshaDict := ⟨some "vata", []⟩

/-- Row whose key and ingredients mention peanut and which is not vegan. -/
def c4Row1 : Row :=
  ⟨"peanut butter", "Peanut Butter", "misc", "peanut", 500, 20, 10, 40, 0, 0, 0, true, false, 0⟩

/-- Clean vegan row. -/
def c4Row2 : Row := ⟨"apple", "Apple", "fruits", "apple", 80, 0, 20, 0, 0, 0, 0, true, true, 0⟩

/-- Catalog with one allergen row and one clean row. -/
def c4F : Frame := ⟨[c4Row1, c4Row2], true, true, true, true, true, true, false⟩

/-- Profile with a peanut allergy and a vegan preference. -/
def c4UP : UserProfile := ⟨"peanut", "", "", "vegan"⟩

/-- Three-row catalog with calories 30, 10, 20 for the item-cap witness. -/
def c3F : Frame :=
  ⟨[{ c5RowA with food_key := "r1", Food_Item := "r1", Calories := 30 },
    { c5RowA with food_key := "r2", Food_Item := "r2", Calories := 10 },
    { c5RowA with food_key := "r3", Food_Item := "r3", Calories := 20 }],
   true, true, true, true, true, true, false⟩

/-- Meal item used in validator examples. -/
def mealJ : Json := .obj [("name", .str "x"), ("calories", .num 100)]

/-- One structurally valid day. -/
def dayJ : Json :=
  .obj [("breakfast", .arr [mealJ]), ("lunch", .arr [mealJ]), ("dinner", .arr [mealJ])]

/-- Minimal plan with exactly `day_1` and no `totals`: valid for one day,
and also the example plan missing `day_2`. -/
def c6Minimal : Json := .obj [("day_1", dayJ)]

/-- Plan whose lunch is an empty list. -/
def c6EmptyLunch : Json :=
  .obj [("day_1", .obj [("breakfast", .arr [mealJ]), ("lunch", .arr []),
                        ("dinner", .arr [mealJ])])]

/-- Row rendered in the snippet counter-demonstration. -/
def c8Row : Row := ⟨"apple", "Apple", "Fruits", "", 100, 2, 3, 1, 0, 0, 0, true, true, 0⟩

/-- One-row catalog for the snippet. -/
def c8F : Frame := ⟨[c8Row], false, true, true, true, true, true, false⟩

/-- Strict lexicographic order on (key, position): the tie-break order realised
by a stable ascending sort of position-annotated elements. -/
def lexLt (key : α → ℚ) (idx : α → ℕ) (a b : α) : Prop :=
  key a < key b ∨ (key a = key b ∧ idx a < idx b)

/-! Auxiliary lemmas about the embedded operations. -/

theorem halfEven_intCast (n : ℤ) : halfEven ((n:ℚ)) = n := by
  unfold halfEven
  rw [Int.floor_intCast]
  simp

theorem pyRound2_intCast (n : ℤ) : pyRound2 ((n:ℚ)) = (n:ℚ) := by
  unfold pyRound2
  rw [show ((n:ℚ) * 100) = (((n*100 : ℤ)):ℚ) by push_cast; ring, halfEven_intCast]
  push_cast
  exact mul_div_cancel_right₀ _ (by norm_num)

theorem insertLe_perm (le : α → α → Bool) (a : α) :
    ∀ l : List α, (insertLe le a l).Perm (a :: l) := by
  intro l
  induction l with
  | nil => simp [insertLe]
  | cons b t ih =>
    by_cases h : le a b
    · simp [insertLe, h]
    · simp only [insertLe, h, if_neg, Bool.false_eq_true, not_false_eq_true, ite_false]
      exact (ih.cons b).trans (List.Perm.swap a b t)

theorem insertionSort_perm (le : α → α → Bool) :
    ∀ l : List α, (insertionSort le l).Perm l := by
  intro l
  induction l with
  | nil => simp [insertionSort]
  | cons a t ih =>
    exact (insertLe_perm le a (insertionSort le t)).trans (ih.cons a)

theorem pairwise_insertLe_le (key : α → ℚ) (x : α) :
    ∀ l : List α, l.Pairwise (fun a b => key a ≤ key b) →
      (insertLe (leKey key) x l).Pairwise (fun a b => key a ≤ key b) := by
  intro l
  induction l with
  | nil => simp [insertLe]
  | cons b t ih =>
    intro hp
    rw [List.pairwise_cons] at hp
    by_cases h : leKey key x b
    · have hxb : key x ≤ key b := of_decide_eq_true h
      simp only [insertLe, h, ite_true]
      refine List.Pairwise.cons ?_ (List.Pairwise.cons hp.1 hp.2)
      intro z hz
      rcases List.mem_cons.mp hz with rfl | hz'
      · exact hxb
      · exact hxb.trans (hp.1 z hz')
    · have hbx : key b ≤ key x := by
        simp only [leKey, decide_eq_true_eq] at h
        exact le_of_not_le h
      simp only [insertLe, h, Bool.false_eq_true, not_false_eq_true, ite_false]
      refine List.Pairwise.cons ?_ (ih hp.2)
      intro z hz
      have hz' : z ∈ x :: t := (insertLe_perm (leKey key) x t).mem_iff.mp hz
      rcases List.mem_cons.mp hz' with rfl | hz''
      · exact hbx
      · exact hp.1 z hz''

theorem pairwise_insertionSort_le (key : α → ℚ) :
    ∀ l : List α, (insertionSort (leKey key) l).Pairwise (fun a b => key a ≤ key b) := by
  intro l
  induction l with
  | nil => simp [insertionSort]
  | cons a t ih => exact pairwise_insertLe_le key a _ ih

theorem pairwise_insertLe_lex (key : α → ℚ) (idx : α → ℕ) (x : α) :
    ∀ l : List α, l.Pairwise (lexLt key idx) → (∀ y ∈ l, idx x < idx y) →
      (insertLe (leKey key) x l).Pairwise (lexLt key idx) := by
  intro l
  induction l with
  | nil => simp [insertLe]
  | cons b t ih =>
    intro hp hidx
    rw [List.pairwise_cons] at hp
    by_cases h : leKey key x b
    · have hxb : key x ≤ key b := of_decide_eq_true h
      simp only [insertLe, h, ite_true]
      refine List.Pairwise.cons ?_ (List.Pairwise.cons hp.1 hp.2)
      intro z hz
      have hxz : key x ≤ key z := by
        rcases List.mem_cons.mp hz with rfl | hz'
        · exact hxb
        · rcases hp.1 z hz' with h1 | h1
          · linarith
          · linarith [h1.1]
      rcases lt_or_eq_of_le hxz with h2 | h2
      · exact Or.inl h2
      · exact Or.inr ⟨h2, hidx z hz⟩
    · have hbx : key b < key x := by
        simp only [leKey, decide_eq_true_eq] at h
        exact not_le.mp h
      simp only [insertLe, h, Bool.false_eq_true, not_false_eq_true, ite_false]
      refine List.Pairwise.cons ?_ (ih hp.2 (fun y hy => hidx y (List.mem_cons_of_mem b hy)))
      intro z hz
      have hz' : z ∈ x :: t := (insertLe_perm (leKey key) x t).mem_iff.mp hz
      rcases List.mem_cons.mp hz' with rfl | hz''
      · exact Or.inl hbx
      · exact hp.1 z hz''

theorem pairwise_insertionSort_lex (key : α → ℚ) (idx : α → ℕ) :
    ∀ l : List α, l.Pairwise (fun a b => idx a < idx b) →
      (insertionSort (leKey key) l).Pairwise (lexLt key idx) := by
  intro l
  induction l with
  | nil => simp [insertionSort]
  | cons a t ih =>
    intro hp
    rw [List.pairwise_cons] at hp
    refine pairwise_insertLe_lex key idx a _ (ih hp.2) ?_
    intro y hy
    exact hp.1 y ((insertionSort_perm (leKey key) t).mem_iff.mp hy)

theorem map_snd_insertLe (key : α → ℚ) (x : ℕ × α) :
    ∀ l : List (ℕ × α),
      (insertLe (leKey (fun p : ℕ × α => key p.2)) x l).map Prod.snd =
        insertLe (leKey key) x.2 (l.map Prod.snd) := by
  intro l
  induction l with
  | nil => simp [insertLe]
  | cons b t ih =>
    simp only [insertLe, leKey, List.map_cons]
    by_cases h : key x.2 ≤ key b.2
    · simp [h]
    · simp [h, ih]

theorem map_snd_insertionSort (key : α → ℚ) :
    ∀ l : List (ℕ × α),
      (insertionSort (leKey (fun p : ℕ × α => key p.2)) l).map Prod.snd =
        insertionSort (leKey key) (l.map Prod.snd) := by
  intro l
  induction l with
  | nil => simp [insertionSort]
  | cons a t ih => simp [insertionSort, map_snd_insertLe, ih]


theorem filter_by_allergies_eq (f : Frame) (a : String) :
    filter_by_allergies f a =
      { f with rows := f.rows.filter (fun r => !(allergyHit (parse_restrictions a) f.hasIngredients r)) } := by
  unfold filter_by_allergies
  by_cases h : a = ""
  · subst h
    simp [parse_restrictions, allergyHit, patternSearch, List.filter_true]
  · simp only [h, ite_false]
    by_cases h2 : parse_restrictions a = []
    · simp [h2, allergyHit, patternSearch, List.filter_true]
    · simp [h2]

theorem filter_by_dietary_restrictions_eq (f : Frame) (a : String) :
    filter_by_dietary_restrictions f a =
      { f with rows := f.rows.filter (fun r => !(patternSearch (parse_restrictions a) r.food_key)) } := by
  unfold filter_by_dietary_restrictions
  by_cases h : a = ""
  · subst h
    simp [parse_restrictions, patternSearch, List.filter_true]
  · simp only [h, ite_false]
    by_cases h2 : parse_restrictions a = []
    · simp [h2, patternSearch, List.filter_true]
    · simp [h2]

theorem filter_by_health_conditions_eq (f : Frame) (hc : String) :
    filter_by_health_conditions f hc =
      { f with rows := f.rows.filter (fun r => !(patternSearch (avoidTerms (parse_restrictions hc)) r.food_key)) } := by
  unfold filter_by_health_conditions
  by_cases h : hc = ""
  · subst h
    simp [parse_restrictions, avoidTerms, patternSearch, List.filter_true]
  · simp only [h, ite_false]
    by_cases h2 : avoidTerms (parse_restrictions hc) = []
    · simp [h2, patternSearch, List.filter_true]
    · simp [h2]

theorem filter_by_diet_preference_eq (f : Frame) (up : UserProfile) :
    filter_by_diet_preference f up =
      { f with rows := f.rows.filter (keepPref up f.hasIsVegan f.hasIsVeg) } := by
  obtain ⟨rows, c1, c2, c3, c4, c5, c6, c7⟩ := f
  unfold filter_by_diet_preference keepPref
  by_cases h : up.Food_preference = ""
  · simp [h, List.filter_true]
  · by_cases hv : strLower up.Food_preference = "vegan"
    · cases c3 <;> simp [h, hv, List.filter_true]
    · by_cases hg : strLower up.Food_preference = "vegetarian"
      · cases c2 <;> simp [h, hv, hg, List.filter_true]
      · simp [h, hv, hg, List.filter_true]

theorem filter_by_dosha_balance_eq (f : Frame) (td : String) (st : ℚ) :
    filter_by_dosha_balance f td st = { f with rows := f.rows.filter (keepDosha f td st) } := by
  unfold filter_by_dosha_balance keepDosha
  by_cases h : td = ""
  · simp [h, List.filter_true]
  · by_cases h2 : hasDoshaCol f (pyCapitalize td)
    · by_cases h8 : st ≥ 8/10
      · simp [h, h2, h8]
      · by_cases h5 : st ≥ 5/10 <;> simp [h, h2, h8, h5]
    · simp only [h, ite_false, h2, Bool.not_false, ite_true, Bool.false_eq_true, Bool.not_eq_true]
      simp [h2, List.filter_true]

theorem keepDosha_update (f : Frame) (l : List Row) (td : String) (st : ℚ) (r : Row) :
    keepDosha { f with rows := l } td st r = keepDosha f td st r := rfl

theorem strictFiltered_mem (f : Frame) (up : UserProfile) (td : String) (ds : ℚ) (r : Row) :
    r ∈ (strictFiltered f up td ds).rows ↔
      r ∈ f.rows ∧
      allergyHit (parse_restrictions up.Allergies) f.hasIngredients r = false ∧
      patternSearch (avoidTerms (parse_restrictions up.Health_Conditions)) r.food_key = false ∧
      keepPref up f.hasIsVegan f.hasIsVeg r = true ∧
      patternSearch (parse_restrictions up.Dietary_Restrictions) r.food_key = false ∧
      keepDosha f td ds r = true := by
  by_cases htd : td = ""
  · simp only [strictFiltered, filter_by_allergies_eq, filter_by_health_conditions_eq,
      filter_by_diet_preference_eq, filter_by_dietary_restrictions_eq, htd, ne_eq,
      not_true_eq_false, ite_false]
    simp only [keepDosha, htd, ite_true, List.mem_filter, Bool.and_eq_true, Bool.not_eq_true']
    tauto
  · simp only [strictFiltered, filter_by_allergies_eq, filter_by_health_conditions_eq,
      filter_by_diet_preference_eq, filter_by_dietary_restrictions_eq,
      filter_by_dosha_balance_eq, htd, ne_eq, not_false_eq_true, ite_true, keepDosha_update]
    simp only [List.mem_filter, Bool.and_eq_true, Bool.not_eq_true', and_assoc]
    rw [keepDosha_update]

theorem relaxedFiltered_mem (f : Frame) (up : UserProfile) (td : String) (r : Row) :
    r ∈ (relaxedFiltered f up td).rows ↔
      r ∈ f.rows ∧
      allergyHit (parse_restrictions up.Allergies) f.hasIngredients r = false ∧
      keepPref up f.hasIsVegan f.hasIsVeg r = true ∧
      keepDosha f td (3/10) r = true := by
  by_cases htd : td = ""
  · simp only [relaxedFiltered, filter_by_allergies_eq, filter_by_diet_preference_eq, htd,
      ne_eq, not_true_eq_false, ite_false]
    simp only [keepDosha, htd, ite_true, List.mem_filter, Bool.and_eq_true, Bool.not_eq_true']
    tauto
  · simp only [relaxedFiltered, filter_by_allergies_eq, filter_by_diet_preference_eq,
      filter_by_dosha_balance_eq, htd, ne_eq, not_false_eq_true, ite_true, keepDosha_update]
    simp only [List.mem_filter, Bool.and_eq_true, Bool.not_eq_true', and_assoc]
    rw [keepDosha_update]

theorem preCap_eq_or (f : Frame) (up : UserProfile) (td : String) (ds : ℚ) :
    preCap f up td ds = strictFiltered f up td ds ∨
      preCap f up td ds = relaxedFiltered f up td := by
  by_cases h : (strictFiltered f up td ds).rows.length < 20 ∧ ds > 3/10
  · exact Or.inr (by simp [preCap, h])
  · exact Or.inl (by simp [preCap, h])

theorem filter_foods_for_user_rows_subset (f : Frame) (up : UserProfile) (td : String)
    (mi : Nat) (ds : ℚ) :
    ∀ r ∈ (filter_foods_for_user f up td mi ds).rows, r ∈ (preCap f up td ds).rows := by
  intro r hr
  unfold filter_foods_for_user at hr
  by_cases h : (preCap f up td ds).rows.length > mi
  · simp only [h, ite_true] at hr
    have h1 : r ∈ insertionSort (leKey (fun x => x.Calories)) (preCap f up td ds).rows :=
      List.mem_of_mem_take hr
    exact (insertionSort_perm _ _).mem_iff.mp h1
  · simpa [h] using hr

/-- C10: for every catalog, profile, target dosha and dosha strictness above
0.3, the relaxed candidate set (allergy filter, diet-preference filter, and
the dosha filter at strictness 0.3, before the item cap) is a superset of the
strict five-stage result: every row surviving the strict pass also survives
the relaxed pass. -/
theorem relaxed_pass_superset_of_strict (f : Frame) (up : UserProfile) (td : String)
    (ds : ℚ) (h : 3/10 < ds) :
    ∀ r ∈ (strictFiltered f up td ds).rows, r ∈ (relaxedFiltered f up td).rows := by
  intro r hr
  rw [strictFiltered_mem] at hr
  obtain ⟨h1, h2, _h3, h4, _h5, h6⟩ := hr
  rw [relaxedFiltered_mem]
  refine ⟨h1, h2, h4, ?_⟩
  unfold keepDosha at h6 ⊢
  by_cases htd : td = ""
  · simp [htd]
  · simp only [htd, ite_false] at h6 ⊢
    by_cases hcol : hasDoshaCol f (pyCapitalize td)
    · simp only [hcol, Bool.not_true, Bool.false_eq_true, ite_false] at h6 ⊢
      rw [if_neg (by norm_num), if_neg (by norm_num)]
      by_cases h8 : ds ≥ 8/10
      · rw [if_pos h8] at h6
        have := of_decide_eq_true h6
        exact decide_eq_true (by linarith)
      · rw [if_neg h8] at h6
        by_cases hf : ds ≥ 5/10
        · rw [if_pos hf] at h6
          have := of_decide_eq_true h6
          exact decide_eq_true (by linarith)
        · rwa [if_neg hf] at h6
    · simp [hcol]

/-- Witness for C10 at a concrete catalog and strictness 0.7. -/
theorem relaxed_pass_superset_witness :
    (3/10 : ℚ) < 7/10 ∧
      (∀ r ∈ (strictFiltered c4F c4UP "vata" (7/10)).rows,
        r ∈ (relaxedFiltered c4F c4UP "vata").rows) :=
  ⟨by norm_num, relaxed_pass_superset_of_strict c4F c4UP "vata" (7/10) (by norm_num)⟩

/-- C4: with a non-empty parsed allergy list, no row of the final output of
`filter_foods_for_user` (either branch, after the cap) matches any allergy
term in its food key or (when the column exists) its lowercased ingredients;
a vegan (resp. vegetarian) preference is never violated in the final set when
the corresponding boolean column exists. -/
theorem allergy_diet_never_violated (f : Frame) (up : UserProfile) (td : String)
    (mi : Nat) (ds : ℚ) (hA : parse_restrictions up.Allergies ≠ []) :
    (∀ t ∈ parse_restrictions up.Allergies,
      ∀ r ∈ (filter_foods_for_user f up td mi ds).rows,
        termSearch t r.food_key = false ∧
        (f.hasIngredients = true → termSearch t (strLower r.Ingredients) = false)) ∧
    (strLower up.Food_preference = "vegan" → f.hasIsVegan = true →
      ∀ r ∈ (filter_foods_for_user f up td mi ds).rows, r.is_vegan = true) ∧
    (strLower up.Food_preference = "vegetarian" → f.hasIsVeg = true →
      ∀ r ∈ (filter_foods_for_user f up td mi ds).rows, r.is_veg = true) := by
  have hmem : ∀ r ∈ (filter_foods_for_user f up td mi ds).rows,
      allergyHit (parse_restrictions up.Allergies) f.hasIngredients r = false ∧
      keepPref up f.hasIsVegan f.hasIsVeg r = true := by
    intro r hr
    have hpre := filter_foods_for_user_rows_subset f up td mi ds r hr
    rcases preCap_eq_or f up td ds with he | he
    · rw [he, strictFiltered_mem] at hpre
      exact ⟨hpre.2.1, hpre.2.2.2.1⟩
    · rw [he, relaxedFiltered_mem] at hpre
      exact ⟨hpre.2.1, hpre.2.2.1⟩
  refine ⟨?_, ?_, ?_⟩
  · intro t ht r hr
    have h := (hmem r hr).1
    simp only [allergyHit, Bool.or_eq_false_iff, Bool.and_eq_false_iff] at h
    obtain ⟨hk, hi⟩ := h
    constructor
    · simp only [patternSearch, List.any_eq_false] at hk
      simpa using hk t ht
    · intro hing
      rcases hi with hi | hi
      · rw [hing] at hi
        cases hi
      · simp only [patternSearch, List.any_eq_false] at hi
        simpa using hi t ht
  · intro hv hcol r hr
    have h := (hmem r hr).2
    unfold keepPref at h
    have hne : up.Food_preference ≠ "" := by
      intro he
      rw [he] at hv
      exact absurd hv (by decide)
    rw [if_neg hne, if_pos hv, hcol] at h
    simpa using h
  · intro hg hcol r hr
    have h := (hmem r hr).2
    unfold keepPref at h
    have hne : up.Food_preference ≠ "" := by
      intro he
      rw [he] at hg
      exact absurd hg (by decide)
    have hnv : ¬(strLower up.Food_preference = "vegan") := by
      rw [hg]
      decide
    rw [if_neg hne, if_neg hnv, if_pos hg, hcol] at h
    simpa using h

/-- Witness for C4: peanut allergy and vegan preference on a concrete catalog. -/
theorem allergy_diet_never_violated_witness :
    parse_restrictions c4UP.Allergies ≠ [] ∧
    strLower c4UP.Food_preference = "vegan" ∧ c4F.hasIsVegan = true ∧
    (∀ r ∈ (filter_foods_for_user c4F c4UP "vata" 150 (7/10)).rows, r.is_vegan = true) :=
  ⟨by decide, by decide, by decide,
    (allergy_diet_never_violated c4F c4UP "vata" 150 (7/10) (by decide)).2.1
      (by decide) (by decide)⟩

/-- C3: when the filtered candidate set exceeds `max_items`, the output has
exactly `max_items` rows and consists precisely of the `max_items`
lowest-calorie rows (the remaining rows all have calories at least as large);
when it does not exceed the cap, the filtered set is returned unchanged. -/
theorem item_cap_keeps_lowest_calories (f : Frame) (up : UserProfile) (td : String)
    (mi : Nat) (ds : ℚ) :
    ((preCap f up td ds).rows.length > mi →
      (filter_foods_for_user f up td mi ds).rows.length = mi ∧
      ∃ rest, ((filter_foods_for_user f up td mi ds).rows ++ rest).Perm (preCap f up td ds).rows ∧
        ∀ x ∈ (filter_foods_for_user f up td mi ds).rows, ∀ y ∈ rest, x.Calories ≤ y.Calories) ∧
    ((preCap f up td ds).rows.length ≤ mi →
      filter_foods_for_user f up td mi ds = preCap f up td ds) := by
  constructor
  · intro h
    have hout : (filter_foods_for_user f up td mi ds).rows =
        (insertionSort (leKey (fun x : Row => x.Calories)) (preCap f up td ds).rows).take mi := by
      simp [filter_foods_for_user, h]
    have hperm : (insertionSort (leKey (fun x : Row => x.Calories)) (preCap f up td ds).rows).Perm
        (preCap f up td ds).rows := insertionSort_perm _ _
    have hlen : (insertionSort (leKey (fun x : Row => x.Calories)) (preCap f up td ds).rows).length =
        (preCap f up td ds).rows.length := hperm.length_eq
    refine ⟨?_, ?_⟩
    · rw [hout, List.length_take, hlen]
      omega
    · refine ⟨(insertionSort (leKey (fun x : Row => x.Calories)) (preCap f up td ds).rows).drop mi,
        ?_, ?_⟩
      · rw [hout, List.take_append_drop]
        exact hperm
      · intro x hx y hy
        have hp := pairwise_insertionSort_le (fun r : Row => r.Calories) (preCap f up td ds).rows
        rw [← List.take_append_drop mi
          (insertionSort (leKey (fun x : Row => x.Calories)) (preCap f up td ds).rows),
          List.pairwise_append] at hp
        exact hp.2.2 x (by rwa [hout] at hx) y hy
  · intro h
    simp [filter_foods_for_user, show ¬((preCap f up td ds).rows.length > mi) from not_lt.mpr h]

/-- Witness for C3 at a concrete three-row catalog with cap 2. -/
theorem item_cap_witness :
    ((preCap c3F emptyUP "" (7/10)).rows.length > 2 ∧
      (filter_foods_for_user c3F emptyUP "" 2 (7/10)).rows.length = 2 ∧
      ∃ rest, ((filter_foods_for_user c3F emptyUP "" 2 (7/10)).rows ++ rest).Perm
          (preCap c3F emptyUP "" (7/10)).rows ∧
        ∀ x ∈ (filter_foods_for_user c3F emptyUP "" 2 (7/10)).rows, ∀ y ∈ rest,
          x.Calories ≤ y.Calories) :=
  ⟨by decide, (item_cap_keeps_lowest_calories c3F emptyUP "" 2 (7/10)).1 (by decide)⟩

theorem pairwise_fst_lt_enumFrom (n : ℕ) (l : List α) :
    (l.enumFrom n).Pairwise (fun a b => a.1 < b.1) := by
  induction l generalizing n with
  | nil => simp
  | cons x t ih =>
    simp only [List.enumFrom]
    refine List.Pairwise.cons ?_ (ih (n+1))
    intro y hy
    have := List.le_fst_of_mem_enumFrom hy
    omega

theorem foldl_doshaScores (f : Frame) (r : Row) (l : List (String × ℚ)) :
    ∀ init : ℚ,
      l.foldl (fun acc kw =>
        match doshaEffect f (pyCapitalize kw.1) r with
        | some e => acc + (-e * kw.2 * 20)
        | none => acc) init =
      init + (l.map (fun kw =>
        match doshaEffect f (pyCapitalize kw.1) r with
        | some e => -e * kw.2 * 20
        | none => 0)).sum := by
  induction l with
  | nil =>
    intro init
    simp
  | cons kw t ih =>
    intro init
    simp only [List.foldl_cons, List.map_cons, List.sum_cons]
    cases hde : doshaEffect f (pyCapitalize kw.1) r with
    | none =>
      simp only [hde]
      rw [ih]
      ring
    | some e =>
      simp only [hde]
      rw [ih]
      ring

/-- C5 (amended): the scorer output is a permutation of the scored rows,
sorted by weakly descending `user_score`; annotating rows with their pre-sort
positions, the output is exactly strictly ordered by (score descending,
position descending), i.e. deterministic with ties in REVERSED pre-sort
order — pandas argsorts ascending (stably, for small frames) and then
reverses the indexer. -/
theorem score_sort_desc_deterministic (f : Frame) (up : UserProfile) (d : DoshaDict) :
    ((score_foods_for_user f up d).rows).Perm (scoredUnsorted f d).rows ∧
    ((score_foods_for_user f up d).rows).Pairwise (fun a b => b.user_score ≤ a.user_score) ∧
    ((insertionSort (leKey (fun p : ℕ × Row => p.2.user_score))
        (scoredUnsorted f d).rows.enum).reverse).map Prod.snd =
      (score_foods_for_user f up d).rows ∧
    ((insertionSort (leKey (fun p : ℕ × Row => p.2.user_score))
        (scoredUnsorted f d).rows.enum).reverse).Pairwise
      (fun a b => b.2.user_score < a.2.user_score ∨
        (b.2.user_score = a.2.user_score ∧ b.1 < a.1)) := by
  have hrows : (score_foods_for_user f up d).rows =
      (insertionSort (leKey (fun r : Row => r.user_score)) (scoredUnsorted f d).rows).reverse := rfl
  refine ⟨?_, ?_, ?_, ?_⟩
  · rw [hrows]
    exact (List.reverse_perm _).trans (insertionSort_perm _ _)
  · rw [hrows, List.pairwise_reverse]
    exact pairwise_insertionSort_le (fun r : Row => r.user_score) (scoredUnsorted f d).rows
  · rw [hrows, List.map_reverse, map_snd_insertionSort, List.enum_map_snd]
  · rw [List.pairwise_reverse]
    exact pairwise_insertionSort_lex (fun p : ℕ × Row => p.2.user_score) Prod.fst
      (scoredUnsorted f d).rows.enum (pairwise_fst_lt_enumFrom 0 _)

/-- C5 counterexample: two rows scoring equally (both 50) come out of
`FoodScorer` in reversed catalog order beta-alpha, not the claimed stable
order alpha-beta. -/
theorem score_sort_stable_counterexample :
    (scoredUnsorted c5F vataD).rows.map (fun r => r.user_score) = [50, 50] ∧
    (score_foods_for_user c5F emptyUP vataD).rows.map (fun r => r.Food_Item) = ["beta", "alpha"] ∧
    ¬((score_foods_for_user c5F emptyUP vataD).rows.map (fun r => r.Food_Item) =
        ["alpha", "beta"]) :=
  ⟨by decide, by decide, by decide⟩

set_option maxHeartbeats 2000000 in
/-- C2: the per-row score is exactly the rounded sum of the six claimed
components (dominant-dosha band, weighted multi-dosha sum, calorie band,
protein bonus, category bonus, processed penalty); on the Spinach test vector
with weights vata 0.6, pitta 0.3, kapha 0.1 it equals 40 + 6 + 10 + 5 + 15 =
76. -/
theorem score_formula :
    (∀ (f : Frame) (d : DoshaDict) (r : Row),
      computeScore f (strLower (d.doshaD "")) d.scores r =
        pyRound2 (
          (match doshaEffect f (pyCapitalize (strLower (d.doshaD ""))) r with
           | some e => if e < 0 then (40:ℚ) else if e = 0 then 20 else -20
           | none => 0) +
          (d.scores.map (fun kw =>
            match doshaEffect f (pyCapitalize kw.1) r with
            | some e => -e * kw.2 * 20
            | none => 0)).sum +
          (if 50 ≤ r.Calories ∧ r.Calories ≤ 400 then 10
           else if r.Calories > 600 then -10 else 0) +
          (if r.Protein > 5 then 5 else 0) +
          (if beneficial_categories.any (fun b => strContains (strLower r.Category) b)
           then 15 else 0) +
          (if processed_indicators.any (fun i =>
              strContains (strLower r.Food_Item) i || strContains (strLower r.Category) i)
           then -15 else 0))) ∧
    computeScore c2F (strLower (c2D.doshaD "")) c2D.scores c2Row = 76 ∧
    (40:ℚ) + ((-(-1) * (3/5) * 20) + (-(1) * (3/10) * 20) + (-(0) * (1/10) * 20)) +
      10 + 5 + 15 = 76 := by
  refine ⟨?_, by decide, by norm_num⟩
  intro f d r
  simp only [computeScore]
  rw [foldl_doshaScores]
  by_cases ht : strLower (d.doshaD "") = ""
  · rw [ht]
    have h0 : doshaEffect f (pyCapitalize "") r = none := rfl
    simp only [ne_eq, not_true_eq_false, ite_false, h0]
    split_ifs <;> exact congrArg pyRound2 (by ring)
  · rw [if_pos ht]
    cases hde : doshaEffect f (pyCapitalize (strLower (d.doshaD ""))) r with
    | none =>
      simp only [hde]
      split_ifs <;> exact congrArg pyRound2 (by ring)
    | some e =>
      simp only [hde]
      split_ifs <;> exact congrArg pyRound2 (by ring)

theorem mealEntry_iff (day : List (String × Json)) (m : String) :
    (match getKey day m with
     | some (.arr items) => decide (items.length ≠ 0)
     | _ => false) = true ↔
    ∃ items, getKey day m = some (Json.arr items) ∧ items ≠ [] := by
  cases h : getKey day m with
  | none => simp [h]
  | some v => cases v <;> simp [h, List.length_eq_zero]

theorem checkDay_iff (plan : List (String × Json)) (k : String) :
    checkDay plan k = true ↔
    ∃ day, getKey plan k = some (Json.obj day) ∧
      ∀ m ∈ (["breakfast", "lunch", "dinner"] : List String),
        ∃ items, getKey day m = some (Json.arr items) ∧ items ≠ [] := by
  unfold checkDay
  cases h : getKey plan k with
  | none => simp [h]
  | some v =>
    cases v with
    | obj day =>
      simp only [h, Option.some.injEq, Json.obj.injEq, exists_eq_left', List.all_eq_true]
      constructor
      · intro hall m hm
        exact (mealEntry_iff day m).mp (hall m hm)
      · intro hall m hm
        exact (mealEntry_iff day m).mpr (hall m hm)
    | null => simp [h]
    | bool b => simp [h]
    | num q => simp [h]
    | str sv => simp [h]
    | arr l => simp [h]

theorem totalsEntry_iff (te : List (String × Json)) (k : String) :
    (match getKey te k with
     | none => true
     | some v =>
        match asNum v with
        | some q => decide (0 < q)
        | none => false) = true ↔
    (∀ v, getKey te k = some v → ∃ q, asNum v = some q ∧ 0 < q) := by
  cases h : getKey te k with
  | none => simp [h]
  | some v =>
    cases hq : asNum v with
    | none => simp [h, hq]
    | some q => simp [h, hq]

theorem checkTotals_iff (plan : List (String × Json)) (days : ℕ) :
    checkTotals plan days = true ↔
    ∀ t, getKey plan "totals" = some t →
      ∃ te, t = Json.obj te ∧
        ∀ i ∈ List.range days, ∀ v, getKey te (dayKey (i+1)) = some v →
          ∃ q, asNum v = some q ∧ 0 < q := by
  unfold checkTotals
  cases h : getKey plan "totals" with
  | none => simp [h]
  | some v => cases v <;> simp [h, List.all_eq_true, totalsEntry_iff]

/-- C6: the validator accepts a plan for `expected_days` exactly when it is an
object with keys `day_1 .. day_{expected_days}`, each an object whose
breakfast, lunch and dinner entries are non-empty arrays, and any `totals`
entry is an object whose checked day entries are positive numbers; in
particular a plan missing `day_2` fails for two days, an empty lunch fails,
and the minimal plan with no totals passes. -/
theorem validator_characterization :
    (∀ (plan : Json) (days : ℕ), validatePlan plan days = true ↔ ValidSpec plan days) ∧
    validatePlan c6Minimal 2 = false ∧
    validatePlan c6EmptyLunch 1 = false ∧
    validatePlan c6Minimal 1 = true := by
  refine ⟨?_, by decide, by decide, by decide⟩
  intro plan days
  cases plan with
  | null => simp [validatePlan, ValidSpec]
  | bool b => simp [validatePlan, ValidSpec]
  | num q => simp [validatePlan, ValidSpec]
  | str sv => simp [validatePlan, ValidSpec]
  | arr l => simp [validatePlan, ValidSpec]
  | obj entries =>
    simp only [validatePlan, Bool.and_eq_true, List.all_eq_true, ValidSpec]
    constructor
    · rintro ⟨hd, ht⟩
      refine ⟨entries, rfl, ?_, ?_⟩
      · intro i hi
        exact (checkDay_iff _ _).mp (hd i hi)
      · exact (checkTotals_iff _ _).mp ht
    · rintro ⟨en, he, hd, ht⟩
      injection he with he2
      subst he2
      exact ⟨fun i hi => (checkDay_iff _ _).mpr (hd i hi), (checkTotals_iff _ _).mpr ht⟩

/-- Witness for C6: the characterization applied to the minimal plan. -/
theorem validator_characterization_witness :
    validatePlan c6Minimal 1 = true ↔ ValidSpec c6Minimal 1 :=
  (validator_characterization).1 c6Minimal 1

/-- C1 counterexample: with daily_calories = 0 the fallback plan's totals are
all 0, so it fails the validator, refuting the claim for every calorie value. -/
theorem fallback_plan_counterexample :
    validatePlan (generateFallbackPlan vataD 0 1) 1 = false := by decide

theorem getKey_map_const (v : Json) (keys : List String) (tail : List (String × Json))
    (k : String) (hk : k ∈ keys) :
    getKey ((keys.map (fun s2 => (s2, v))) ++ tail) k = some v := by
  induction keys with
  | nil => cases hk
  | cons a t ih =>
    simp only [List.map_cons, List.cons_append, getKey]
    by_cases h : a = k
    · simp [h]
    · rcases List.mem_cons.mp hk with rfl | hk2
      · exact absurd rfl h
      · simp [h, ih hk2]

theorem getKey_skip (l tail : List (String × Json)) (k : String)
    (h : ∀ p ∈ l, p.1 ≠ k) :
    getKey (l ++ tail) k = getKey tail k := by
  induction l with
  | nil => rfl
  | cons p t ih =>
    simp only [List.cons_append, getKey]
    rw [if_neg (h p (List.mem_cons_self p t))]
    exact ih (fun q hq => h q (List.mem_cons_of_mem p hq))

theorem dayKey_ne_totals (n : ℕ) : dayKey n ≠ "totals" := by
  intro h
  rcases hs : toString n with ⟨cs⟩
  rw [dayKey, hs] at h
  have h2 : ('d' :: 'a' :: 'y' :: '_' :: cs) = "totals".data := congrArg String.data h
  simp at h2

/-- C1 (amended): for every dosha mapping, day count ≥ 1 and daily_calories
≥ 1, the fallback plan contains all day keys (each passing the per-day check
with its singleton breakfast/lunch/dinner/snacks), a totals object mapping
every day to int(daily_calories) ≥ 1 > 0, and passes the validator. -/
theorem fallback_plan_valid (d : DoshaDict) (dc : ℚ) (days : ℕ)
    (h1 : 1 ≤ days) (h2 : 1 ≤ dc) :
    (1 : ℤ) ≤ pyInt dc ∧
    (∃ entries, generateFallbackPlan d dc days = Json.obj entries ∧
      (∀ i ∈ List.range days, checkDay entries (dayKey (i+1)) = true) ∧
      getKey entries "totals" =
        some (Json.obj ((List.range days).map
          (fun i => (dayKey (i+1), Json.num ((pyInt dc : ℤ) : ℚ)))))) ∧
    validatePlan (generateFallbackPlan d dc days) days = true := by
  have hpos : (1:ℤ) ≤ pyInt dc := by
    unfold pyInt
    rw [if_neg (by linarith : ¬ dc < 0)]
    exact Int.le_floor.mpr (by exact_mod_cast h2)
  have hmapeq : (List.range days).map
        (fun j => (dayKey (j+1), fallbackDay (strLower (d.doshaD "vata")) dc)) =
      ((List.range days).map (fun j => dayKey (j+1))).map
        (fun s2 => (s2, fallbackDay (strLower (d.doshaD "vata")) dc)) := by
    rw [List.map_map]
    rfl
  have hday : ∀ i ∈ List.range days,
      getKey ((List.range days).map
          (fun j => (dayKey (j+1), fallbackDay (strLower (d.doshaD "vata")) dc)) ++
        [("totals", Json.obj ((List.range days).map
            (fun j => (dayKey (j+1), Json.num ((pyInt dc : ℤ) : ℚ))))),
         ("summary", Json.obj
           [("total_foods_used",
              Json.num (((templatesFor (strLower (d.doshaD "vata"))).length * 4 : ℕ) : ℚ)),
            ("dosha_focus", Json.str (strLower (d.doshaD "vata"))),
            ("avg_daily_calories", Json.num ((pyInt dc : ℤ) : ℚ)),
            ("method", Json.str "fallback_template")])])
        (dayKey (i+1)) = some (fallbackDay (strLower (d.doshaD "vata")) dc) := by
    intro i hi
    rw [hmapeq]
    exact getKey_map_const _ _ _ _ (List.mem_map.mpr ⟨i, hi, rfl⟩)
  have htot : getKey ((List.range days).map
          (fun j => (dayKey (j+1), fallbackDay (strLower (d.doshaD "vata")) dc)) ++
        [("totals", Json.obj ((List.range days).map
            (fun j => (dayKey (j+1), Json.num ((pyInt dc : ℤ) : ℚ))))),
         ("summary", Json.obj
           [("total_foods_used",
              Json.num (((templatesFor (strLower (d.doshaD "vata"))).length * 4 : ℕ) : ℚ)),
            ("dosha_focus", Json.str (strLower (d.doshaD "vata"))),
            ("avg_daily_calories", Json.num ((pyInt dc : ℤ) : ℚ)),
            ("method", Json.str "fallback_template")])])
        "totals" = some (Json.obj ((List.range days).map
          (fun j => (dayKey (j+1), Json.num ((pyInt dc : ℤ) : ℚ))))) := by
    rw [getKey_skip]
    · rfl
    · intro p hp
      rcases List.mem_map.mp hp with ⟨j, _, rfl⟩
      exact dayKey_ne_totals (j+1)
  have hcd : ∀ i ∈ List.range days,
      checkDay ((List.range days).map
          (fun j => (dayKey (j+1), fallbackDay (strLower (d.doshaD "vata")) dc)) ++
        [("totals", Json.obj ((List.range days).map
            (fun j => (dayKey (j+1), Json.num ((pyInt dc : ℤ) : ℚ))))),
         ("summary", Json.obj
           [("total_foods_used",
              Json.num (((templatesFor (strLower (d.doshaD "vata"))).length * 4 : ℕ) : ℚ)),
            ("dosha_focus", Json.str (strLower (d.doshaD "vata"))),
            ("avg_daily_calories", Json.num ((pyInt dc : ℤ) : ℚ)),
            ("method", Json.str "fallback_template")])])
        (dayKey (i+1)) = true := by
    intro i hi
    unfold checkDay
    rw [hday i hi]
    rfl
  refine ⟨hpos, ⟨_, rfl, hcd, htot⟩, ?_⟩
  have hq : (0:ℚ) < ((pyInt dc : ℤ) : ℚ) := by
    exact_mod_cast lt_of_lt_of_le Int.zero_lt_one hpos
  simp only [generateFallbackPlan, validatePlan, Bool.and_eq_true, List.all_eq_true]
  refine ⟨hcd, ?_⟩
  unfold checkTotals
  rw [htot]
  simp only [List.all_eq_true]
  intro i hi
  have hk : getKey ((List.range days).map
      (fun j => (dayKey (j+1), Json.num ((pyInt dc : ℤ) : ℚ)))) (dayKey (i+1)) =
      some (Json.num ((pyInt dc : ℤ) : ℚ)) := by
    have hmap2 : (List.range days).map
          (fun j => (dayKey (j+1), Json.num ((pyInt dc : ℤ) : ℚ))) =
        ((List.range days).map (fun j => dayKey (j+1))).map
          (fun s2 => (s2, Json.num ((pyInt dc : ℤ) : ℚ))) := by
      rw [List.map_map]
      rfl
    rw [hmap2, show (((List.range days).map (fun j => dayKey (j+1))).map
        (fun s2 => (s2, Json.num ((pyInt dc : ℤ) : ℚ)))) =
        (((List.range days).map (fun j => dayKey (j+1))).map
          (fun s2 => (s2, Json.num ((pyInt dc : ℤ) : ℚ)))) ++ [] from (List.append_nil _).symm]
    exact getKey_map_const _ _ _ _ (List.mem_map.mpr ⟨i, hi, rfl⟩)
  rw [hk]
  simp only [asNum]
  exact decide_eq_true hq

/-- Witness for C1 (amended) at 1500 kcal for one day. -/
theorem fallback_plan_valid_witness :
    (1:ℚ) ≤ 1500 ∧ validatePlan (generateFallbackPlan vataD 1500 1) 1 = true :=
  ⟨by norm_num, (fallback_plan_valid vataD 1500 1 (le_refl 1) (by norm_num)).2.2⟩

theorem firstIdxOf_iff (c : Char) : ∀ (s : List Char) (i : ℕ),
    firstIdxOf c s = some i ↔ (s[i]? = some c ∧ ∀ k, k < i → s[k]? ≠ some c) := by
  intro s
  induction s with
  | nil =>
    intro i
    simp [firstIdxOf]
  | cons a rest ih =>
    intro i
    by_cases h : a = c
    · subst h
      simp only [firstIdxOf, if_pos rfl]
      constructor
      · intro h2
        injection h2 with h2
        subst h2
        exact ⟨by simp, by omega⟩
      · rintro ⟨h2, h3⟩
        cases i with
        | zero => rfl
        | succ n => exact absurd (by simp : (a :: rest)[0]? = some a) (h3 0 (Nat.succ_pos n))
    · simp only [firstIdxOf, if_neg h]
      constructor
      · intro h2
        rcases Option.map_eq_some'.mp h2 with ⟨j, hj, rfl⟩
        obtain ⟨hj1, hj2⟩ := (ih j).mp hj
        refine ⟨by simpa using hj1, ?_⟩
        intro k hk
        cases k with
        | zero =>
          simp only [List.getElem?_cons_zero]
          intro he
          exact h (Option.some.inj he)
        | succ m =>
          simp only [List.getElem?_cons_succ]
          exact hj2 m (by omega)
      · rintro ⟨h1, h2⟩
        cases i with
        | zero => exact absurd (Option.some.inj (by simpa using h1)) h
        | succ n =>
          have hr : firstIdxOf c rest = some n := (ih n).mpr ⟨by simpa using h1, fun k hk => by
            have := h2 (k+1) (by omega)
            simpa using this⟩
          rw [hr]
          rfl

theorem firstIdxOf_isSome_of_mem (c : Char) :
    ∀ s : List Char, c ∈ s → ∃ i, firstIdxOf c s = some i := by
  intro s
  induction s with
  | nil =>
    intro h
    cases h
  | cons a rest ih =>
    intro h
    by_cases ha : a = c
    · exact ⟨0, by simp [firstIdxOf, ha]⟩
    · rcases List.mem_cons.mp h with rfl | h2
      · exact absurd rfl ha
      · rcases ih h2 with ⟨j, hj⟩
        exact ⟨j+1, by simp [firstIdxOf, ha, hj]⟩

theorem lastIdxOf_isSome_of_mem (c : Char) :
    ∀ s : List Char, c ∈ s → ∃ j, lastIdxOf c s = some j := by
  intro s
  induction s with
  | nil =>
    intro h
    cases h
  | cons a rest ih =>
    intro h
    cases hr : lastIdxOf c rest with
    | some k0 => exact ⟨k0+1, by simp [lastIdxOf, hr]⟩
    | none =>
      rcases List.mem_cons.mp h with rfl | h2
      · exact ⟨0, by simp [lastIdxOf, hr]⟩
      · rcases ih h2 with ⟨j, hj⟩
        rw [hj] at hr
        cases hr

theorem lastIdxOf_iff (c : Char) : ∀ (s : List Char) (j : ℕ),
    lastIdxOf c s = some j ↔ (s[j]? = some c ∧ ∀ k, j < k → s[k]? ≠ some c) := by
  intro s
  induction s with
  | nil =>
    intro j
    simp [lastIdxOf]
  | cons a rest ih =>
    intro j
    cases hr : lastIdxOf c rest with
    | some k0 =>
      simp only [lastIdxOf, hr]
      obtain ⟨hk1, hk2⟩ := (ih k0).mp hr
      constructor
      · intro h2
        injection h2 with h2
        subst h2
        refine ⟨by simpa using hk1, ?_⟩
        intro k hk
        cases k with
        | zero => omega
        | succ m =>
          simp only [List.getElem?_cons_succ]
          exact hk2 m (by omega)
      · rintro ⟨h1, h2⟩
        cases j with
        | zero =>
          exact absurd (show (a :: rest)[k0+1]? = some c by simpa using hk1)
            (h2 (k0+1) (Nat.succ_pos k0))
        | succ n =>
          have hn : lastIdxOf c rest = some n := (ih n).mpr ⟨by simpa using h1, fun k hk => by
            have := h2 (k+1) (by omega)
            simpa using this⟩
          rw [hr] at hn
          injection hn with hn
          rw [hn]
    | none =>
      have hnone : ∀ k : ℕ, rest[k]? ≠ some c := by
        intro k hk
        have hmem : c ∈ rest := by
          have hk2 : k < rest.length := by
            by_contra hc
            rw [List.getElem?_eq_none (by omega)] at hk
            cases hk
          rw [List.getElem?_eq_getElem hk2] at hk
          rw [← Option.some.inj hk]
          exact List.getElem_mem hk2
        rcases lastIdxOf_isSome_of_mem c rest hmem with ⟨j2, hj2⟩
        rw [hr] at hj2
        cases hj2
      by_cases ha : a = c
      · subst ha
        simp only [lastIdxOf, hr, if_pos rfl]
        constructor
        · intro h2
          injection h2 with h2
          subst h2
          refine ⟨by simp, ?_⟩
          intro k hk
          cases k with
          | zero => omega
          | succ m =>
            simp only [List.getElem?_cons_succ]
            exact hnone m
        · rintro ⟨h1, h2⟩
          cases j with
          | zero => rfl
          | succ n => exact absurd (by simpa using h1) (hnone n)
      · simp only [lastIdxOf, hr, if_neg ha]
        constructor
        · intro h2
          cases h2
        · rintro ⟨h1, h2⟩
          cases j with
          | zero => exact absurd (Option.some.inj (by simpa using h1)) ha
          | succ n => exact absurd (by simpa using h1) (hnone n)

/-- C7 (amended): after fence stripping, whenever some opening brace precedes
some closing brace, the extractor returns the greedy span from the FIRST
opening brace to the LAST closing brace of the whole text (regardless of brace
balance; later spans are merged into it); an error is raised only when no
opening brace precedes any closing brace. -/
theorem extract_json_greedy (t : String) :
    (∀ i j, (stripFences t.toList)[i]? = some '\x7b' →
      (∀ k, k < i → (stripFences t.toList)[k]? ≠ some '\x7b') →
      (stripFences t.toList)[j]? = some '\x7d' →
      (∀ k, j < k → (stripFences t.toList)[k]? ≠ some '\x7d') →
      i < j →
      extractJsonFromText t =
        .ok (String.mk (((stripFences t.toList).drop i).take (j - i + 1)))) ∧
    (∀ e, extractJsonFromText t = .error e →
      ∀ i j : ℕ, i < j → ¬((stripFences t.toList)[i]? = some '\x7b' ∧
        (stripFences t.toList)[j]? = some '\x7d')) := by
  constructor
  · intro i j hi hmin hj hmax hij
    have h1 : firstIdxOf '\x7b' (stripFences t.toList) = some i :=
      (firstIdxOf_iff _ _ _).mpr ⟨hi, hmin⟩
    have h2 : lastIdxOf '\x7d' (stripFences t.toList) = some j :=
      (lastIdxOf_iff _ _ _).mpr ⟨hj, hmax⟩
    unfold extractJsonFromText
    simp only [h1, h2, hij, ite_true]
  · rintro e he i j hij ⟨hi, hj⟩
    have hmemI : '\x7b' ∈ stripFences t.toList := by
      have hk2 : i < (stripFences t.toList).length := by
        by_contra hc
        rw [List.getElem?_eq_none (by omega)] at hi
        cases hi
      rw [List.getElem?_eq_getElem hk2] at hi
      rw [← Option.some.inj hi]
      exact List.getElem_mem hk2
    have hmemJ : '\x7d' ∈ stripFences t.toList := by
      have hk2 : j < (stripFences t.toList).length := by
        by_contra hc
        rw [List.getElem?_eq_none (by omega)] at hj
        cases hj
      rw [List.getElem?_eq_getElem hk2] at hj
      rw [← Option.some.inj hj]
      exact List.getElem_mem hk2
    obtain ⟨i0, hi0⟩ := firstIdxOf_isSome_of_mem _ _ hmemI
    obtain ⟨j0, hj0⟩ := lastIdxOf_isSome_of_mem _ _ hmemJ
    obtain ⟨_, hi0b⟩ := (firstIdxOf_iff _ _ _).mp hi0
    obtain ⟨_, hj0b⟩ := (lastIdxOf_iff _ _ _).mp hj0
    have hii : i0 ≤ i := by
      by_contra hlt
      exact hi0b i (by omega) hi
    have hjj : j ≤ j0 := by
      by_contra hlt
      exact hj0b j (by omega) hj
    have hij0 : i0 < j0 := by omega
    unfold extractJsonFromText at he
    simp only [hi0, hj0, hij0, ite_true] at he
    cases he

/-- Witness for C7 (amended) on a text with one braced span inside plain text. -/
theorem extract_json_greedy_witness :
    extractJsonFromText "x\x7bA\x7dy" =
      .ok (String.mk (((stripFences ("x\x7bA\x7dy" : String).toList).drop 1).take 3)) ∧
    String.mk (((stripFences ("x\x7bA\x7dy" : String).toList).drop 1).take 3) = "\x7bA\x7d" := by
  have hlen : (stripFences ("x\x7bA\x7dy" : String).toList).length = 5 := by decide
  constructor
  · refine (extract_json_greedy "x\x7bA\x7dy").1 1 3 (by decide) ?_ (by decide) ?_ (by decide)
    · intro k hk
      interval_cases k
      decide
    · intro k hk
      match k, hk with
      | 4, _ => decide
      | (n+5), _ =>
        rw [List.getElem?_eq_none (by omega)]
        simp
  · decide

/-- C7 counterexample: with two disjoint brace spans the extractor returns the
merged first-to-last span, not the first balanced span the claim promises. -/
theorem extract_json_first_span_counterexample :
    extractJsonFromText "\x7ba\x7d and \x7bb\x7d" = .ok "\x7ba\x7d and \x7bb\x7d" ∧
    ("\x7ba\x7d and \x7bb\x7d" : String) ≠ "\x7ba\x7d" :=
  ⟨by decide, by decide⟩

/-- C8 (code-bug demonstration): on a one-row catalog the returned snippet
does NOT end with the count-summary line (the source appends it to the local
list only after the join); it ends with the last food line instead. -/
theorem snippet_summary_missing :
    strEndsWith (make_food_snippet c8F 60) (snippetSummary c8F 60) = false ∧
    strEndsWith (make_food_snippet c8F 60) (snippetLine c8F c8Row) = true ∧
    snippetSummary c8F 60 = "\nTotal available foods: 1, showing top 1" :=
  ⟨by decide, by decide, by decide⟩

/-- C9: the catalog's heap cell is unchanged by both `filter_foods_for_user`
and `score_foods_for_user`: each allocates a copy and writes only to fresh
objects, never to the shared catalog reference. -/
theorem catalog_not_mutated (s : Store) (r : Nat) (up : UserProfile) (td : String)
    (mi : Nat) (ds : ℚ) (d : DoshaDict) (h : r < s.length) :
    Store.deref (filterFoodsStore s r up td mi ds).1 r = Store.deref s r ∧
    Store.deref (scoreFoodsStore s r up d).1 r = Store.deref s r := by
  constructor
  · unfold filterFoodsStore Store.alloc Store.deref
    show ((if (strictFiltered ((s[r]?).getD default) up td ds).rows.length < 20 ∧ ds > 3/10
        then (s ++ [(s[r]?).getD default]) ++ [(s[r]?).getD default]
        else s ++ [(s[r]?).getD default]) ++
      [filter_foods_for_user ((s[r]?).getD default) up td mi ds])[r]? = s[r]?
    split
    · rw [List.getElem?_append_left
          (show r < ((s ++ [(s[r]?).getD default]) ++ [(s[r]?).getD default]).length by
            simp only [List.length_append, List.length_cons, List.length_nil]
            omega),
        List.getElem?_append_left
          (show r < (s ++ [(s[r]?).getD default]).length by
            simp only [List.length_append, List.length_cons, List.length_nil]
            omega),
        List.getElem?_append_left h]
    · rw [List.getElem?_append_left
          (show r < (s ++ [(s[r]?).getD default]).length by
            simp only [List.length_append, List.length_cons, List.length_nil]
            omega),
        List.getElem?_append_left h]
  · unfold scoreFoodsStore Store.alloc Store.write Store.deref
    show (((s ++ [(s[r]?).getD default]).set (s.length)
        (scoredUnsorted ((s[r]?).getD default) d) ++
      [score_foods_for_user ((s[r]?).getD default) up d])[r]? = s[r]?)
    rw [List.getElem?_append_left
        (show r < ((s ++ [(s[r]?).getD default]).set (s.length)
            (scoredUnsorted ((s[r]?).getD default) d)).length by
          simp only [List.length_set, List.length_append, List.length_cons, List.length_nil]
          omega),
      List.getElem?_set_ne (by omega),
      List.getElem?_append_left h]

/-- Witness for C9 on a one-frame store. -/
theorem catalog_not_mutated_witness :
    0 < ([c8F] : Store).length ∧
    (Store.deref (filterFoodsStore [c8F] 0 emptyUP "" 150 (7/10)).1 0 = Store.deref [c8F] 0 ∧
      Store.deref (scoreFoodsStore [c8F] 0 emptyUP vataD).1 0 = Store.deref [c8F] 0) :=
  ⟨by decide, catalog_not_mutated [c8F] 0 emptyUP "" 150 (7/10) vataD (by decide)⟩

end Foodoscope
